import Mathlib

set_option maxHeartbeats 1000000

set_option maxRecDepth 4000

/- Batteries marks the `Rat` field operations irreducible, which blocks
`decide`/`rfl` evaluation of the model on concrete inputs; restore the
default reducibility of these ordinary computable definitions. -/

set_option allowUnsafeReducibility true

attribute [semireducible] Rat.add Rat.sub Rat.mul Rat.div Rat.inv

/-!
Verification of the episode-segmentation and delta-summarization loop of
`tesla-parser.py` (lines 137-359) and of the API base-URL guard of
`teslajson.py` (`Connection.__init__`, lines 60-66).

The loop is modelled in the configuration that exercises the segmentation
core: no `--dbconfig`, no `--outdir`, `--nosummary` not set, verbosity 0.
Numeric telemetry fields are rationals; optional fields are `Option ℚ` with
`none` for Python `None`.  Computations that can raise at runtime
(`ZeroDivisionError` from `x / 0`, `TypeError` from arithmetic or `%`-format
on `None`) are modelled in the `Option` monad, `none` meaning the iteration
raises.  Python 2 semantics are kept where observable: `None` compares
smaller than every number in `<`/`>`, and `not x` is true for `None` and
for `0`.
-/

/-- Python 2 truthiness of an optional numeric field: `not x` holds for
`None` and for `0`; `truthyQ x` is the truth of `x` itself. -/
def truthyQ : Option ℚ → Bool
  | some q => decide (q ≠ 0)
  | none => false

/-- Python 2 `<` on optional numbers: `None` is smaller than every number,
and not smaller than `None`. -/
def pyLT : Option ℚ → Option ℚ → Bool
  | none, some _ => true
  | none, none => false
  | some _, none => false
  | some a, some b => decide (a < b)

/-- Python 2 `>` on optional numbers. -/
def pyGT (a b : Option ℚ) : Bool := pyLT b a

/-- `a if a < b else b` (tesla-parser.py lines 313, 327, 338). -/
def pickLT (a b : Option ℚ) : Option ℚ := if pyLT a b then a else b

/-- `a if a > b else b` (tesla-parser.py lines 287, 295). -/
def pickGT (a b : Option ℚ) : Option ℚ := if pyGT a b then a else b

/-- Python subtraction on optional numbers: arithmetic on `None` raises
(`TypeError`), modelled as `none`. -/
def pyOSub : Option ℚ → Option ℚ → Option ℚ
  | some a, some b => some (a - b)
  | _, _ => none

/-- Python division: `x / 0` raises `ZeroDivisionError`, modelled as `none`. -/
def pyDivQ (a b : ℚ) : Option ℚ := if b = 0 then none else some (a / b)

/-- One normalized telemetry record, as consumed by the main loop of
`tesla-parser.py`.  Only the fields the segmentation loop reads are kept
(`speed`, `charge_miles_added`, `charge_rate`, `charger_power` are read only
by the verbose raw echo `outputit`, which is outside the modelled
configuration). -/
structure Rec where
  time : ℤ
  mode : String
  odometer : Option ℚ
  usable_battery_level : Option ℚ
  battery_range : Option ℚ
  charge_energy_added : Option ℚ
deriving DecidableEq

/-- `new` when present, else `old`. -/
def keepNew (new old : Option ℚ) : Option ℚ :=
  match new with
  | some v => some v
  | none => old

/-- Modelled from the spec: the episode accumulator
`tesla_parselib.tesla_record.__add__` (used at `save = save + this`,
tesla-parser.py line 268) is not under src/.  The spec's accumulation rule
(sections 3, 4.1 and 8) is latest-wins: the merged state takes the new
record's values (`last == record`, first-wins only for the episode start,
which the loop keeps separately in `firstthismode`), while absent optional
fields are tolerated (section 6), so an absent field carries the previous
value forward. -/
def recAdd (old new : Rec) : Rec :=
  { time := new.time
    mode := new.mode
    odometer := keepNew new.odometer old.odometer
    usable_battery_level := keepNew new.usable_battery_level old.usable_battery_level
    battery_range := keepNew new.battery_range old.battery_range
    charge_energy_added := keepNew new.charge_energy_added old.charge_energy_added }

/-- The loop's mutable segmentation state (tesla-parser.py lines 137-141). -/
structure PState where
  firstthismode : Option Rec
  lastprevmode : Option Rec
  save : Option Rec
  lastthis : Option Rec
  reallasttime : Option ℤ
deriving DecidableEq

/-- One line emitted by the summary analysis, carrying the numeric payloads
of the corresponding `print` (formatting and timestamps of the line prefix
are display only and omitted, except `noPrev` which carries what it prints). -/
inductive Out where
  | noPrev (time : ℤ) (mode : String)
  | charged (dblevel level energy drange mph eff rangePerPct : ℚ)
  | drove (dodo dlevel drange eff : ℚ)
  | satLost (dlevel drange perday level : ℚ)
  | conditioned (dlevel drange perday level : ℚ)
  | unhandledMode (mode : String)
deriving DecidableEq

/-- Result of the Driving branch: defer (`break` at line 312), or emit the
given lines (possibly none, when `dodo <= -1`). -/
inductive DriveRes where
  | defer
  | emit (outs : List Out)
deriving DecidableEq

/-- The guarded-ratio idiom `num / den if den > 0 else -0`
(tesla-parser.py lines 307-308 and 325): the sentinel 0 when the
denominator is not positive. -/
def sentinelDiv (num den : ℚ) : Option ℚ :=
  if 0 < den then pyDivQ num den else some 0

/-- The peak-battery-level rule as the spec states it (and as tesla-parser.py
lines 288-293 compute it): the incoming transition record's level when it
strictly exceeds the episode's own last reading, else whichever of the
episode's last and the pre-episode record is higher.  Line 295 immediately
overwrites this value. -/
def chargingPeakSpec (thisLvl saveLvl ltLvl : Option ℚ) : Option ℚ :=
  if pyGT thisLvl saveLvl then thisLvl
  else if pyGT saveLvl ltLvl then saveLvl
  else ltLvl

/-- Charging summary branch (tesla-parser.py lines 286-309).  Lines 288-293
assign a candidate peak level that line 295 unconditionally overwrites; the
overwritten computation cannot raise (Python 2 comparisons accept `None`)
and has no observable effect, so only line 295's value (`pickGT`) appears
here; the dead computation itself is `chargingPeakSpec`. -/
def chargingCalc (save : Rec) (lastthis : Option Rec) (lastprevmode : Rec)
    (durQ : ℚ) : Option Out := do
  let lt ← lastthis
  let battery_range := pickGT save.battery_range lt.battery_range
  let usable := pickGT save.usable_battery_level lt.usable_battery_level
  let dblevel ← pyOSub usable lastprevmode.usable_battery_level
  let ulev ← usable
  let energy ← save.charge_energy_added
  let drange ← pyOSub battery_range lastprevmode.battery_range
  let mph ← pyDivQ (drange * 3600) durQ
  let eff ← sentinelDiv (energy * 100) dblevel
  let br ← battery_range
  let slev ← save.usable_battery_level
  let rpp ← pyDivQ (br * 100) slev
  some (Out.charged dblevel ulev energy drange mph eff rpp)

/-- Driving summary branch (tesla-parser.py lines 310-325).  `r` is the raw
incoming transition record (`this`): line 311 checks `this.odometer` and
`break`s (defers) when it is falsy. -/
def drivingCalc (r save : Rec) (lastthis : Option Rec) (lastprevmode : Rec) :
    Option DriveRes :=
  if truthyQ r.odometer then do
    let lt ← lastthis
    let battery_range := pickLT save.battery_range lt.battery_range
    let usable := pickLT save.usable_battery_level lt.usable_battery_level
    let dodo ← pyOSub save.odometer lastprevmode.odometer
    let drange ← pyOSub lastprevmode.battery_range battery_range
    if -1 < dodo then do
      let dlevel ← pyOSub lastprevmode.usable_battery_level usable
      let eff ← sentinelDiv (dodo * 100) drange
      some (DriveRes.emit [Out.drove dodo dlevel drange eff])
    else
      some (DriveRes.emit [])
  else some DriveRes.defer

/-- Standby summary branch (tesla-parser.py lines 326-336).  Note line 328:
the battery-level baseline is `lastthis.usable_battery_level` outright, not
a minimum. -/
def standbyCalc (save : Rec) (lastthis : Option Rec) (lastprevmode : Rec)
    (durQ : ℚ) : Option Out := do
  let lt ← lastthis
  let battery_range := pickLT save.battery_range lt.battery_range
  let usable := lt.usable_battery_level
  let drange ← pyOSub lastprevmode.battery_range battery_range
  let dlevel ← pyOSub lastprevmode.usable_battery_level usable
  let perday ← pyDivQ drange (durQ / 86400)
  let ulev ← usable
  some (Out.satLost dlevel drange perday ulev)

/-- Conditioning summary branch (tesla-parser.py lines 337-347), transcribed
from its own lines; textually the same computation as the Standby branch
with a different label. -/
def conditioningCalc (save : Rec) (lastthis : Option Rec) (lastprevmode : Rec)
    (durQ : ℚ) : Option Out := do
  let lt ← lastthis
  let battery_range := pickLT save.battery_range lt.battery_range
  let usable := lt.usable_battery_level
  let drange ← pyOSub lastprevmode.battery_range battery_range
  let dlevel ← pyOSub lastprevmode.usable_battery_level usable
  let perday ← pyDivQ drange (durQ / 86400)
  let ulev ← usable
  some (Out.conditioned dlevel drange perday ulev)

/-- The mode dispatch of the summary block (tesla-parser.py lines 286-351),
reached when the guard at line 283 passed. -/
def dispatchCalc (ftmMode : String) (r save : Rec) (lastthis : Option Rec)
    (lastprevmode : Rec) (durQ : ℚ) : Option DriveRes :=
  if ftmMode = "Charging" then
    (chargingCalc save lastthis lastprevmode durQ).map (fun o => DriveRes.emit [o])
  else if ftmMode = "Driving" then
    drivingCalc r save lastthis lastprevmode
  else if ftmMode = "Standby" then
    (standbyCalc save lastthis lastprevmode durQ).map (fun o => DriveRes.emit [o])
  else if ftmMode = "Conditioning" then
    (conditioningCalc save lastthis lastprevmode durQ).map (fun o => DriveRes.emit [o])
  else
    some (DriveRes.emit [Out.unhandledMode ftmMode])

/-- `save + this` as the loop performs it (tesla-parser.py lines 267-270):
merge into the running accumulator, or start it from the record. -/
def saveMerge (s : PState) (r : Rec) : Rec :=
  match s.save with
  | some sv => recAdd sv r
  | none => r

/-- Python 2 truthiness of the remembered timestamp (`if reallasttime:`,
tesla-parser.py line 277). -/
def rtTruthy : Option ℤ → Bool
  | some t => decide (t ≠ 0)
  | none => false

/-- One iteration of the main loop for one parsed record (tesla-parser.py
lines 261-359), in the modelled configuration (no database, no outdir, no
`--nosummary`, verbosity 0).  `none` means the iteration raises.

Structure, following the source: "Polling" records only remember the real
timestamp and `continue` (lines 261-265); otherwise the record is merged
into `save` (267-271); the `while`'s `else:` seeds the bookkeeping from the
first record (355-359); a same-mode record just falls out of the `while`
(`break` at 354) and updates `lastthis` (359); on a mode transition the
remembered Polling timestamp is consumed (277-279, a dead store into
`this.time`: the displayed end time at line 282 reads `save.time`), the
missing-previous-state guard may fire (283-285), otherwise the closing mode
dispatches (286-351), and except for the Driving `break` (312) the boundary
state advances (352-353); `lastthis = save` always runs (359). -/
def stepRec (s : PState) (r : Rec) : Option (PState × List Out) :=
  if r.mode = "Polling" then
    some ({ s with reallasttime := some r.time }, [])
  else
    let save' := saveMerge s r
    match s.firstthismode with
    | none =>
        some (⟨some save', some save', some save', some save', none⟩, [])
    | some ftm =>
        if ftm.mode = r.mode then
          some ({ s with save := some save', lastthis := some save' }, [])
        else
          let rlt := if rtTruthy s.reallasttime then none else s.reallasttime
          let durQ : ℚ := ((save'.time - ftm.time : ℤ) : ℚ)
          let adv : PState := ⟨some save', s.lastthis, some save', some save', rlt⟩
          match s.lastprevmode with
          | none => some (adv, [Out.noPrev ftm.time ftm.mode])
          | some lp =>
              if truthyQ lp.usable_battery_level && truthyQ lp.odometer then
                match dispatchCalc ftm.mode r save' s.lastthis lp durQ with
                | none => none
                | some (DriveRes.emit outs) => some (adv, outs)
                | some DriveRes.defer =>
                    some (⟨s.firstthismode, s.lastprevmode, some save', some save', rlt⟩, [])
              else
                some (adv, [Out.noPrev ftm.time ftm.mode])

/-- Run the loop over a list of records, concatenating emitted lines;
`none` as soon as an iteration raises. -/
def runRecs (s : PState) : List Rec → Option (PState × List Out)
  | [] => some (s, [])
  | r :: rest =>
    match stepRec s r with
    | none => none
    | some (s', outs) =>
      match runRecs s' rest with
      | none => none
      | some (s'', outs') => some (s'', outs ++ outs')

/-- Initial state: all five globals start as `None`
(tesla-parser.py lines 137-141). -/
def initState : PState := ⟨none, none, none, none, none⟩

/-- Adjacent differing-mode pairs in a record sequence. -/
def countAdj : List Rec → ℕ
  | a :: b :: t => (if a.mode = b.mode then 0 else 1) + countAdj (b :: t)
  | _ => 0

/-- The records that take part in segmentation: everything but "Polling". -/
def nonPolling (rs : List Rec) : List Rec :=
  rs.filter (fun r => decide (r.mode ≠ "Polling"))

/-- Mode-transition boundaries of an input sequence: adjacent differing-mode
pairs after excluding "Polling" records from adjacency. -/
def boundaries (rs : List Rec) : ℕ := countAdj (nonPolling rs)

/-- Boundary count relative to the mode of an already-open episode. -/
def countAdjFrom : Option String → List Rec → ℕ
  | _, [] => 0
  | none, r :: t => countAdjFrom (some r.mode) t
  | some m, r :: t => (if m = r.mode then 0 else 1) + countAdjFrom (some r.mode) t

/-- A record with every optional field present and nonzero (Python-truthy). -/
def goodRec (r : Rec) : Bool :=
  truthyQ r.odometer && truthyQ r.usable_battery_level &&
    truthyQ r.battery_range && truthyQ r.charge_energy_added

/-- The odometer value of a record, defaulting to 0. -/
def odoVal (r : Rec) : ℚ := r.odometer.getD 0

/-- Well-formed stream order: strictly increasing timestamps and
non-decreasing odometer. -/
def ordRel (a b : Rec) : Prop := a.time < b.time ∧ odoVal a ≤ odoVal b

/-- The mode of the currently open episode, if any. -/
def modeOf (s : PState) : Option String := s.firstthismode.map Rec.mode

/-!  Model of `teslajson.Connection.__init__`'s base-URL validation
(teslajson.py lines 60-66).  URLs are character lists. -/

/-- The URL acceptance check of teslajson.py line 64: starts with
`https://`, no further `/` after that prefix, and ends with
`.teslamotors.com` or `.tesla.com`. -/
def urlOk (u : List Char) : Bool :=
  ("https://").toList.isPrefixOf u &&
    !((u.drop 8).contains '/') &&
    ((".teslamotors.com").toList.isSuffixOf u || (".tesla.com").toList.isSuffixOf u)

/-- The client configuration fetched dynamically at `Connection.__init__`
(teslajson.py line 60-62); only the base URL matters to the guard. -/
structure TeslaClientCfg where
  baseurl : List Char
deriving DecidableEq

/-- `Connection.__init__` (teslajson.py lines 60-66): validate the fetched
base URL; on failure raise `IOError` (modelled as `Except.error`), otherwise
the connection keeps `baseurl` and every later authentication or vehicle
request is issued against it (`Connection.__open`, line 115:
`baseurl = self.baseurl`). -/
def connInit (cfg : TeslaClientCfg) : Except (List Char) (List Char) :=
  if urlOk cfg.baseurl then Except.ok cfg.baseurl
  else Except.error (("Unexpected URL from pastebin").toList)

/-- Swap the Standby label for the Conditioning label, keeping every
numeric payload. -/
def relabelCond : Out → Out
  | Out.satLost a b c d => Out.conditioned a b c d
  | o => o

/-- The delta-% payload of a Charging summary line. -/
def chargedDeltaOf : Out → Option ℚ
  | Out.charged d _ _ _ _ _ _ => some d
  | _ => none

/-- The efficiency payload of a Charging summary line. -/
def chargedEffOf : Out → Option ℚ
  | Out.charged _ _ _ _ _ e _ => some e
  | _ => none

/-- A zero-duration Charging episode: first and closing record share
timestamp 100. -/
def c1ChargeA : Rec := ⟨100, "Charging", some 1000, some 50, some 150, some 5⟩

/-- The differing-mode record that closes `c1ChargeA`'s episode at the same
timestamp. -/
def c1ChargeB : Rec := ⟨100, "Driving", some 1001, some 50, some 150, none⟩

/-- A zero-duration Standby episode: first and closing record share
timestamp 50. -/
def c1StandA : Rec := ⟨50, "Standby", some 1000, some 50, some 150, none⟩

/-- The differing-mode record that closes `c1StandA`'s episode at the same
timestamp. -/
def c1StandB : Rec := ⟨50, "Driving", some 1001, some 50, some 150, none⟩

/-- Does a line come from the missing-previous-state guard? -/
def isNoPrev : Out → Bool
  | Out.noPrev _ _ => true
  | _ => false

/-- Does a line list contain a missing-previous-state diagnostic? -/
def hasNoPrev (l : List Out) : Bool := l.any isNoPrev

/-- The state after the very first non-Polling record `r`: all four
bookkeeping records are seeded from it and the Polling timestamp is cleared
(the `while`'s `else:`, tesla-parser.py lines 355-359). -/
def seedState (r : Rec) : PState := ⟨some r, some r, some r, some r, none⟩

/-- First record of the C2 stream: full-fielded Driving snapshot. -/
def c2r1 : Rec := ⟨0, "Driving", some 100, some 80, some 200, some 1⟩

/-- Second record of the C2 stream: Standby transition closing the first
episode. -/
def c2r2 : Rec := ⟨600, "Standby", some 110, some 70, some 180, some 1⟩

/-- Witness input for C2's amended statement: a first record without an
odometer reading. -/
def c2w1 : Rec := ⟨0, "Driving", none, some 80, some 200, some 1⟩

/-- Witness input for C2's amended statement: the transition record. -/
def c2w2 : Rec := ⟨600, "Standby", some 110, some 70, some 180, some 1⟩

/-- First record of the C5 stream: full-fielded Driving snapshot. -/
def c5r1 : Rec := ⟨0, "Driving", some 100, some 80, some 200, some 1⟩

/-- Second record of the C5 stream: a Standby transition with no odometer,
so the Driving summary is deferred (`break` at tesla-parser.py line 312). -/
def c5r2 : Rec := ⟨600, "Standby", none, some 70, some 180, some 1⟩

/-- Closing accumulator of the C6 Standby episode (level 60, range 180). -/
def c6sv : Rec := ⟨600, "Standby", some 100, some 60, some 180, some 1⟩

/-- Record preceding the C6 episode (`lastthis`, level 70, range 190). -/
def c6lt : Rec := ⟨0, "Standby", some 100, some 70, some 190, some 1⟩

/-- Previous boundary of the C6 episode (`lastprevmode`, level 90,
range 200). -/
def c6lp : Rec := ⟨0, "Charging", some 100, some 90, some 200, some 1⟩

/-- First record of the C4 witness stream: Charging at level 50. -/
def c4r1 : Rec := ⟨0, "Charging", some 100, some 50, some 150, some 5⟩

/-- Closing record of the C4 witness stream: Driving at level 80. -/
def c4r2 : Rec := ⟨600, "Driving", some 100, some 80, some 240, some 12⟩

/-- Invariant carried along a well-formed stream: whenever an episode is
open, its first record predates every remaining record, and the two
boundary records are good records whose odometers do not exceed any
remaining record's. -/
def StateOK (s : PState) (rest : List Rec) : Prop :=
  ∀ F, s.firstthismode = some F →
    ((∀ x ∈ rest, F.time < x.time) ∧
      ∃ P L, s.lastprevmode = some P ∧ s.lastthis = some L ∧
        goodRec P = true ∧ goodRec L = true ∧
        ∀ x ∈ rest, odoVal P ≤ odoVal x ∧ odoVal L ≤ odoVal x)

/-- First record of the C3 counterexample stream: Driving at odometer
100. -/
def c3r1 : Rec := ⟨0, "Driving", some 100, some 80, some 200, some 1⟩

/-- Second record of the C3 counterexample stream: Standby at odometer 50,
closing the Driving episode with distance -50. -/
def c3r2 : Rec := ⟨600, "Standby", some 50, some 70, some 180, some 1⟩

/-- First record of the C3 witness stream. -/
def c3w1 : Rec := ⟨0, "Charging", some 100, some 50, some 150, some 5⟩

/-- Second record of the C3 witness stream. -/
def c3w2 : Rec := ⟨600, "Driving", some 101, some 80, some 240, some 12⟩

/-- C8: the Standby and the Conditioning metric calculators are the same
function up to the label of the emitted line: on identical inputs they
compute identical minimum range, battery-level baseline, battery-lost,
range-lost and per-day-rate values (tesla-parser.py lines 326-336 vs
337-347). -/
theorem C8_standby_conditioning_same (sv : Rec) (lt : Option Rec) (lp : Rec) (d : ℚ) :
    conditioningCalc sv lt lp d = (standbyCalc sv lt lp d).map relabelCond := by
  cases lt with
  | none => rfl
  | some l =>
    cases h1 : pyOSub lp.battery_range (pickLT sv.battery_range l.battery_range) with
    | none => simp [standbyCalc, conditioningCalc, h1]
    | some dr =>
      cases h4 : l.usable_battery_level with
      | none => simp [standbyCalc, conditioningCalc, h1, h4, pyOSub]
      | some ul =>
        cases h2 : pyOSub lp.usable_battery_level (some ul) with
        | none => simp [standbyCalc, conditioningCalc, h1, h4, h2]
        | some dl =>
          cases h3 : pyDivQ dr (d / 86400) with
          | none => simp [standbyCalc, conditioningCalc, h1, h4, h2, h3]
          | some pd =>
            simp [standbyCalc, conditioningCalc, h1, h4, h2, h3, relabelCond]

/-- C7: a "Polling" record leaves every piece of segmentation state
unchanged except `reallasttime`, which becomes the record's time; no line
is emitted, no episode is opened or closed (tesla-parser.py lines 261-265). -/
theorem C7_polling_frame (s : PState) (r : Rec) (h : r.mode = "Polling") :
    stepRec s r = some ({ s with reallasttime := some r.time }, []) := by
  simp [stepRec, h]

/-- Witness for C7 at a concrete state and Polling record. -/
theorem C7_polling_frame_witness :
    stepRec initState ⟨7, "Polling", none, none, none, none⟩ =
      some ({ initState with reallasttime := some 7 }, []) :=
  C7_polling_frame initState ⟨7, "Polling", none, none, none, none⟩ rfl

/-- C9: when a Driving episode closes with the incoming record's odometer
present but the computed distance `save.odometer - lastprevmode.odometer`
at most -1, the `dodo > -1` gate (tesla-parser.py line 318) suppresses the
summary line, no diagnostic is emitted, and yet lines 352-353 and 359 still
advance the boundary state to the new episode: the summary is silently
dropped, not deferred. -/
theorem C9_driving_silent_drop (s : PState) (r ftm lp lt : Rec) (dodo : ℚ)
    (hf : s.firstthismode = some ftm) (hm : ftm.mode = "Driving")
    (hrp : r.mode ≠ "Polling") (hne : ftm.mode ≠ r.mode)
    (hlp : s.lastprevmode = some lp)
    (hg : (truthyQ lp.usable_battery_level && truthyQ lp.odometer) = true)
    (hlt : s.lastthis = some lt)
    (hro : truthyQ r.odometer = true)
    (hdodo : pyOSub (saveMerge s r).odometer lp.odometer = some dodo)
    (hdle : dodo ≤ -1)
    (hdr : (pyOSub lp.battery_range
      (pickLT (saveMerge s r).battery_range lt.battery_range)).isSome = true) :
    stepRec s r = some
      (⟨some (saveMerge s r), some lt, some (saveMerge s r), some (saveMerge s r),
        if rtTruthy s.reallasttime then none else s.reallasttime⟩, []) := by
  obtain ⟨dr, hdr'⟩ := Option.isSome_iff_exists.mp hdr
  have hnotlt : ¬(-1 < dodo) := not_lt.mpr hdle
  have hne' : ¬("Driving" = r.mode) := by rw [← hm]; exact hne
  simp [stepRec, dispatchCalc, drivingCalc, hf, hlp, hlt, hg, hro, hm, hdodo,
    hdr', hrp, hne', hnotlt]

/-- Witness for C9: a Driving episode seeded from a record with odometer 100
closes on a Standby record with odometer 50; distance is -50 <= -1, nothing
is printed, and the boundary state advances. -/
theorem C9_driving_silent_drop_witness :
    stepRec ⟨some ⟨0, "Driving", some 100, some 80, some 200, some 1⟩,
        some ⟨0, "Driving", some 100, some 80, some 200, some 1⟩,
        some ⟨0, "Driving", some 100, some 80, some 200, some 1⟩,
        some ⟨0, "Driving", some 100, some 80, some 200, some 1⟩, none⟩
      ⟨600, "Standby", some 50, some 70, some 180, some 1⟩ = some
      (⟨some (saveMerge ⟨some ⟨0, "Driving", some 100, some 80, some 200, some 1⟩,
          some ⟨0, "Driving", some 100, some 80, some 200, some 1⟩,
          some ⟨0, "Driving", some 100, some 80, some 200, some 1⟩,
          some ⟨0, "Driving", some 100, some 80, some 200, some 1⟩, none⟩
          ⟨600, "Standby", some 50, some 70, some 180, some 1⟩),
        some ⟨0, "Driving", some 100, some 80, some 200, some 1⟩,
        some (saveMerge ⟨some ⟨0, "Driving", some 100, some 80, some 200, some 1⟩,
          some ⟨0, "Driving", some 100, some 80, some 200, some 1⟩,
          some ⟨0, "Driving", some 100, some 80, some 200, some 1⟩,
          some ⟨0, "Driving", some 100, some 80, some 200, some 1⟩, none⟩
          ⟨600, "Standby", some 50, some 70, some 180, some 1⟩),
        some (saveMerge ⟨some ⟨0, "Driving", some 100, some 80, some 200, some 1⟩,
          some ⟨0, "Driving", some 100, some 80, some 200, some 1⟩,
          some ⟨0, "Driving", some 100, some 80, some 200, some 1⟩,
          some ⟨0, "Driving", some 100, some 80, some 200, some 1⟩, none⟩
          ⟨600, "Standby", some 50, some 70, some 180, some 1⟩),
        if rtTruthy (none : Option ℤ) then none else (none : Option ℤ)⟩, []) :=
  C9_driving_silent_drop _ _ _ _ _ (-50) rfl rfl (by decide) (by decide) rfl
    (by decide) rfl (by decide) (by decide) (by decide) (by decide)

/-- C10: `Connection.__init__` raises `IOError` whenever the fetched base
URL does not start with `https://`, contains a `/` after that prefix, or
does not end with `.teslamotors.com` or `.tesla.com` (teslajson.py lines
63-65); consequently a connection object (against whose `baseurl` every
later authentication and vehicle request is issued) only ever holds a
validated URL. -/
theorem C10_url_guard (cfg : TeslaClientCfg) :
    (∀ u, connInit cfg = Except.ok u →
      u = cfg.baseurl ∧
      ("https://").toList.isPrefixOf u = true ∧
      (u.drop 8).contains '/' = false ∧
      (((".teslamotors.com").toList.isSuffixOf u) ||
        ((".tesla.com").toList.isSuffixOf u)) = true) ∧
    ((("https://").toList.isPrefixOf cfg.baseurl = false ∨
        (cfg.baseurl.drop 8).contains '/' = true ∨
        (((".teslamotors.com").toList.isSuffixOf cfg.baseurl) ||
          ((".tesla.com").toList.isSuffixOf cfg.baseurl)) = false) →
      ∃ e, connInit cfg = Except.error e) := by
  constructor
  · intro u hu
    unfold connInit at hu
    split at hu
    · next h =>
      cases hu
      unfold urlOk at h
      simp only [Bool.and_eq_true, Bool.not_eq_true'] at h
      exact ⟨rfl, h.1.1, h.1.2, h.2⟩
    · cases hu
  · intro h
    have hfail : urlOk cfg.baseurl = false := by
      rcases h with h | h | h
      · simp only [urlOk, h, Bool.false_and]
      · simp only [urlOk, h, Bool.not_true, Bool.and_false, Bool.false_and]
      · simp only [urlOk, h, Bool.and_false]
    exact ⟨("Unexpected URL from pastebin").toList, by simp [connInit, hfail]⟩

/-- Witness for C10: the real owner-API URL passes the guard, and a URL on
a foreign domain is rejected. -/
theorem C10_url_guard_witness :
    (("https://owner-api.teslamotors.com").toList = ("https://owner-api.teslamotors.com").toList ∧
      ("https://").toList.isPrefixOf ("https://owner-api.teslamotors.com").toList = true ∧
      (("https://owner-api.teslamotors.com").toList.drop 8).contains '/' = false ∧
      (((".teslamotors.com").toList.isSuffixOf ("https://owner-api.teslamotors.com").toList) ||
        ((".tesla.com").toList.isSuffixOf ("https://owner-api.teslamotors.com").toList)) = true) ∧
    (∃ e, connInit ⟨("https://evil.example.com").toList⟩ = Except.error e) :=
  ⟨(C10_url_guard ⟨("https://owner-api.teslamotors.com").toList⟩).1
      ("https://owner-api.teslamotors.com").toList (by rfl),
    (C10_url_guard ⟨("https://evil.example.com").toList⟩).2
      (Or.inr (Or.inr (by decide)))⟩

/-- C1 counterexample: an episode closing with zero elapsed duration does
not produce a sentinel — it raises `ZeroDivisionError`.  A Charging episode
whose first and closing records carry the same timestamp crashes in the
miles-per-hour charge rate (tesla-parser.py lines 305-306, `/ 0.0`), and a
Standby episode likewise crashes in the range-lost-per-day rate (line 335);
the modelled run aborts (`none`) instead of emitting a defined value. -/
theorem C1_counterexample :
    c1ChargeA.time = c1ChargeB.time ∧
    runRecs initState [c1ChargeA, c1ChargeB] = none ∧
    c1StandA.time = c1StandB.time ∧
    runRecs initState [c1StandA, c1StandB] = none := by decide

/-- C1 amended: the zero-delta half of the claim holds — the Charging
energy-per-delta-% efficiency is guarded (`if dblevel > 0 else -0`,
tesla-parser.py lines 307-308) and evaluates to the sentinel 0 whenever the
delta-% is not positive — but the zero-duration half fails: an episode
closing with zero elapsed duration makes the Charging charge rate and the
Standby/Conditioning per-day rate divide by zero, so those calculators
raise instead of producing a sentinel. -/
theorem C1_amended (sv : Rec) (lt : Option Rec) (lp : Rec) (d : ℚ) :
    (d = 0 → chargingCalc sv lt lp d = none ∧ standbyCalc sv lt lp d = none ∧
      conditioningCalc sv lt lp d = none) ∧
    (∀ out dl, chargingCalc sv lt lp d = some out → chargedDeltaOf out = some dl →
      dl ≤ 0 → chargedEffOf out = some 0) := by
  constructor
  · rintro rfl
    refine ⟨?_, ?_, ?_⟩ <;>
      · cases lt with
        | none => rfl
        | some l =>
          simp [chargingCalc, standbyCalc, conditioningCalc, pyDivQ,
            Option.bind_eq_none]
  · intro out dl hout hdl hle
    cases lt with
    | none => simp [chargingCalc] at hout
    | some l =>
      simp only [chargingCalc, Option.bind_eq_bind, Option.some_bind,
        Option.bind_eq_some, Option.some.injEq] at hout
      obtain ⟨a1, h1, a2, h2, a3, h3, a4, h4, a5, h5, a6, h6, a7, h7, a8, h8,
        a9, h9, heq⟩ := hout
      subst heq
      simp only [chargedDeltaOf, Option.some.injEq] at hdl
      subst hdl
      rw [sentinelDiv, if_neg (not_lt.mpr hle)] at h6
      cases h6
      rfl

/-- Witness for C1's amended statement: concrete zero-duration closures
fault in all three calculators, and a concrete Charging closure with
negative delta-% reports the sentinel efficiency 0. -/
theorem C1_amended_witness :
    (chargingCalc ⟨600, "Charging", some 5, some 40, some 100, some 2⟩
        (some ⟨0, "Charging", some 5, some 45, some 110, some 2⟩)
        ⟨0, "Driving", some 5, some 60, some 120, some 1⟩ 0 = none ∧
      standbyCalc ⟨600, "Charging", some 5, some 40, some 100, some 2⟩
        (some ⟨0, "Charging", some 5, some 45, some 110, some 2⟩)
        ⟨0, "Driving", some 5, some 60, some 120, some 1⟩ 0 = none ∧
      conditioningCalc ⟨600, "Charging", some 5, some 40, some 100, some 2⟩
        (some ⟨0, "Charging", some 5, some 45, some 110, some 2⟩)
        ⟨0, "Driving", some 5, some 60, some 120, some 1⟩ 0 = none) ∧
    chargedEffOf (Out.charged (-15) 45 2 (-10) (-60) 0 275) = some 0 :=
  ⟨(C1_amended ⟨600, "Charging", some 5, some 40, some 100, some 2⟩
      (some ⟨0, "Charging", some 5, some 45, some 110, some 2⟩)
      ⟨0, "Driving", some 5, some 60, some 120, some 1⟩ 0).1 rfl,
    (C1_amended ⟨600, "Charging", some 5, some 40, some 100, some 2⟩
      (some ⟨0, "Charging", some 5, some 45, some 110, some 2⟩)
      ⟨0, "Driving", some 5, some 60, some 120, some 1⟩ 600).2
      (Out.charged (-15) 45 2 (-10) (-60) 0 275) (-15)
      (by decide) (by decide) (by decide)⟩

/-- A successful Charging calculator result is always a `charged` line. -/
theorem chargingCalc_charged {sv : Rec} {lt : Option Rec} {lp : Rec} {d : ℚ}
    {o : Out} (h : chargingCalc sv lt lp d = some o) :
    ∃ a b c dd e f g, o = Out.charged a b c dd e f g := by
  cases lt with
  | none => simp [chargingCalc] at h
  | some l =>
    simp only [chargingCalc, Option.bind_eq_bind, Option.some_bind,
      Option.bind_eq_some, Option.some.injEq] at h
    obtain ⟨a1, -, a2, -, a3, -, a4, -, a5, -, a6, -, a7, -, a8, -, a9, -,
      heq⟩ := h
    exact ⟨_, _, _, _, _, _, _, heq.symm⟩

/-- A successful Standby calculator result is always a `satLost` line. -/
theorem standbyCalc_satLost {sv : Rec} {lt : Option Rec} {lp : Rec} {d : ℚ}
    {o : Out} (h : standbyCalc sv lt lp d = some o) :
    ∃ a b c dd, o = Out.satLost a b c dd := by
  cases lt with
  | none => simp [standbyCalc] at h
  | some l =>
    simp only [standbyCalc, Option.bind_eq_bind, Option.some_bind,
      Option.bind_eq_some, Option.some.injEq] at h
    obtain ⟨a1, -, a2, -, a3, -, a4, -, heq⟩ := h
    exact ⟨_, _, _, _, heq.symm⟩

/-- A successful Conditioning calculator result is always a `conditioned`
line. -/
theorem conditioningCalc_conditioned {sv : Rec} {lt : Option Rec} {lp : Rec}
    {d : ℚ} {o : Out} (h : conditioningCalc sv lt lp d = some o) :
    ∃ a b c dd, o = Out.conditioned a b c dd := by
  cases lt with
  | none => simp [conditioningCalc] at h
  | some l =>
    simp only [conditioningCalc, Option.bind_eq_bind, Option.some_bind,
      Option.bind_eq_some, Option.some.injEq] at h
    obtain ⟨a1, -, a2, -, a3, -, a4, -, heq⟩ := h
    exact ⟨_, _, _, _, heq.symm⟩

/-- The Driving branch never emits a missing-previous-state diagnostic. -/
theorem drivingCalc_not_noPrev {r sv : Rec} {lt : Option Rec} {lp : Rec}
    {outs : List Out} (h : drivingCalc r sv lt lp = some (DriveRes.emit outs)) :
    hasNoPrev outs = false := by
  unfold drivingCalc at h
  by_cases ho : truthyQ r.odometer = true
  · rw [if_pos ho] at h
    cases lt with
    | none => simp at h
    | some l =>
      simp only [Option.bind_eq_bind, Option.some_bind, Option.bind_eq_some] at h
      obtain ⟨a1, -, a2, -, hif⟩ := h
      by_cases hlt : -1 < a1
      · rw [if_pos hlt] at hif
        simp only [Option.bind_eq_bind, Option.bind_eq_some,
          Option.some.injEq] at hif
        obtain ⟨a3, -, a4, -, heq⟩ := hif
        cases heq
        rfl
      · rw [if_neg hlt] at hif
        cases hif
        rfl
  · rw [if_neg ho] at h
    cases h

/-- The dispatch of a closing episode never emits a missing-previous-state
diagnostic: that line comes only from the guard at tesla-parser.py line
283, which runs before the dispatch. -/
theorem dispatchCalc_not_noPrev {m : String} {r sv : Rec} {lt : Option Rec}
    {lp : Rec} {d : ℚ} {outs : List Out}
    (h : dispatchCalc m r sv lt lp d = some (DriveRes.emit outs)) :
    hasNoPrev outs = false := by
  unfold dispatchCalc at h
  split_ifs at h with hm1 hm2 hm3 hm4
  · rw [Option.map_eq_some'] at h
    obtain ⟨o, ho, hoo⟩ := h
    cases hoo
    obtain ⟨a, b, c, dd, e, f, g, rfl⟩ := chargingCalc_charged ho
    rfl
  · exact drivingCalc_not_noPrev h
  · rw [Option.map_eq_some'] at h
    obtain ⟨o, ho, hoo⟩ := h
    cases hoo
    obtain ⟨a, b, c, dd, rfl⟩ := standbyCalc_satLost ho
    rfl
  · rw [Option.map_eq_some'] at h
    obtain ⟨o, ho, hoo⟩ := h
    cases hoo
    obtain ⟨a, b, c, dd, rfl⟩ := conditioningCalc_conditioned ho
    rfl
  · cases h
    rfl

/-- When the open episode and a guard-passing previous boundary exist, one
loop iteration never emits the missing-previous-state diagnostic. -/
theorem stepRec_guarded_not_noPrev (s : PState) (r ftm lp : Rec)
    (s' : PState) (outs : List Out)
    (hf : s.firstthismode = some ftm) (hlp : s.lastprevmode = some lp)
    (hg : (truthyQ lp.usable_battery_level && truthyQ lp.odometer) = true)
    (hstep : stepRec s r = some (s', outs)) : hasNoPrev outs = false := by
  unfold stepRec at hstep
  split at hstep
  · cases hstep; rfl
  · simp only [hf] at hstep
    split at hstep
    · cases hstep; rfl
    · simp only [hlp, hg, if_true] at hstep
      split at hstep
      · cases hstep
      · next outs2 hd =>
        cases hstep
        exact dispatchCalc_not_noPrev hd
      · cases hstep; rfl

/-- C2 counterexample: closing the very first episode of a stream can
produce a numeric delta summary.  The bookkeeping is seeded from the first
record, so when that record carries truthy `usable_battery_level` and
`odometer` the guard at tesla-parser.py line 283 passes and the Driving
branch prints numbers (deltas measured against the first record itself),
contradicting "never a numeric delta summary". -/
theorem C2_counterexample :
    (runRecs initState [c2r1, c2r2]).map Prod.snd =
      some [Out.drove 10 10 20 50] := by decide

/-- C2 amended: the bookkeeping variables are indeed seeded from the
stream's first record (tesla-parser.py lines 355-359), and closing the
first episode yields the degraded "did not have previous state" line
exactly when that seeded record lacks a truthy `usable_battery_level` or
`odometer`; when both are truthy the closure is dispatched to the mode
calculator with the first record itself as previous boundary, and whatever
it emits is never the degraded line — first-episode delta output is not
suppressed. -/
theorem C2_amended (r1 r2 : Rec) (h1 : r1.mode ≠ "Polling")
    (h2 : r2.mode ≠ "Polling") (hne : r1.mode ≠ r2.mode) :
    stepRec initState r1 = some (seedState r1, []) ∧
    ((truthyQ r1.usable_battery_level && truthyQ r1.odometer) = false →
      (runRecs initState [r1, r2]).map Prod.snd =
        some [Out.noPrev r1.time r1.mode]) ∧
    (∀ st outs, runRecs initState [r1, r2] = some (st, outs) →
      (truthyQ r1.usable_battery_level && truthyQ r1.odometer) = true →
      hasNoPrev outs = false) := by
  have hseed : stepRec initState r1 = some (seedState r1, []) := by
    simp [stepRec, initState, h1, seedState, saveMerge]
  refine ⟨hseed, ?_, ?_⟩
  · intro hg
    have hs2 : stepRec (seedState r1) r2 =
        some (⟨some (saveMerge (seedState r1) r2), some r1,
          some (saveMerge (seedState r1) r2), some (saveMerge (seedState r1) r2),
          none⟩, [Out.noPrev r1.time r1.mode]) := by
      simp [stepRec, seedState, h2, hne, hg]
    simp [runRecs, hseed, hs2]
  · intro st outs h hg
    simp only [runRecs, hseed] at h
    cases hs2 : stepRec (seedState r1) r2 with
    | none => rw [hs2] at h; exact absurd h (by simp)
    | some p =>
      rw [hs2] at h
      simp only [Option.some.injEq, Prod.mk.injEq] at h
      rw [← h.2]
      simpa using stepRec_guarded_not_noPrev (seedState r1) r2 r1 r1 p.1 p.2
        rfl rfl hg hs2

/-- Witness for C2's amended statement at a concrete stream. -/
theorem C2_amended_witness :
    stepRec initState c2w1 = some (seedState c2w1, []) ∧
    ((truthyQ c2w1.usable_battery_level && truthyQ c2w1.odometer) = false →
      (runRecs initState [c2w1, c2w2]).map Prod.snd =
        some [Out.noPrev c2w1.time c2w1.mode]) ∧
    (∀ st outs, runRecs initState [c2w1, c2w2] = some (st, outs) →
      (truthyQ c2w1.usable_battery_level && truthyQ c2w1.odometer) = true →
      hasNoPrev outs = false) :=
  C2_amended c2w1 c2w2 (by decide) (by decide) (by decide)

/-- C5 counterexample: on a deferred Driving closure the segmentation state
is not left unchanged.  After `[c5r1]` the state's accumulator and
`lastthis` both hold `c5r1`; processing the odometer-less transition
`c5r2` emits nothing and keeps `firstthismode`/`lastprevmode`, but line 268
(`save = save + this`) and line 359 (`lastthis = save`) still absorb the
transition record, so `save` and `lastthis` change. -/
theorem C5_counterexample :
    runRecs initState [c5r1] = some (seedState c5r1, []) ∧
    runRecs initState [c5r1, c5r2] =
      some (⟨some c5r1, some c5r1, some (recAdd c5r1 c5r2),
        some (recAdd c5r1 c5r2), none⟩, []) ∧
    some (recAdd c5r1 c5r2) ≠ (seedState c5r1).lastthis ∧
    some (recAdd c5r1 c5r2) ≠ (seedState c5r1).save := by decide

/-- C5 amended: when a Driving episode reaches a transition whose incoming
record has no truthy odometer, no output is produced, `firstthismode` and
`lastprevmode` are unchanged (so summarization is re-attempted on the next
record), but the open-episode accumulator `save` merges the transition
record and `lastthis` is updated to that merged accumulator; the remembered
Polling timestamp is consumed (lines 277-279). -/
theorem C5_amended (s : PState) (r ftm lp : Rec)
    (hf : s.firstthismode = some ftm) (hm : ftm.mode = "Driving")
    (hrp : r.mode ≠ "Polling") (hne : ftm.mode ≠ r.mode)
    (hlp : s.lastprevmode = some lp)
    (hg : (truthyQ lp.usable_battery_level && truthyQ lp.odometer) = true)
    (hro : truthyQ r.odometer = false) :
    stepRec s r = some
      (⟨s.firstthismode, s.lastprevmode, some (saveMerge s r),
        some (saveMerge s r),
        if rtTruthy s.reallasttime then none else s.reallasttime⟩, []) := by
  have hne' : ¬("Driving" = r.mode) := by rw [← hm]; exact hne
  simp [stepRec, dispatchCalc, drivingCalc, hf, hlp, hg, hro, hm, hrp, hne']

/-- Witness for C5's amended statement at a concrete state and record. -/
theorem C5_amended_witness :
    stepRec (seedState c5r1) c5r2 = some
      (⟨(seedState c5r1).firstthismode, (seedState c5r1).lastprevmode,
        some (saveMerge (seedState c5r1) c5r2),
        some (saveMerge (seedState c5r1) c5r2),
        if rtTruthy (seedState c5r1).reallasttime then none
        else (seedState c5r1).reallasttime⟩, []) :=
  C5_amended (seedState c5r1) c5r2 c5r1 c5r1 rfl rfl (by decide) (by decide)
    rfl (by decide) (by decide)

/-- C6 counterexample: the Standby battery-level baseline is not a minimum.
With episode level 60 and `lastthis` level 70, the claim's baseline
`min(60, 70) = 60` would make battery lost `90 - 60 = 30`, but line 328
uses `lastthis.usable_battery_level` outright, so the code reports battery
lost `90 - 70 = 20` (and resulting level 70). -/
theorem C6_counterexample :
    standbyCalc c6sv (some c6lt) c6lp 600 = some (Out.satLost 20 20 2880 70) ∧
    pickLT c6sv.usable_battery_level c6lt.usable_battery_level = some 60 ∧
    c6lp.usable_battery_level = some 90 ∧ ((90 : ℚ) - 60) ≠ 20 := by decide

/-- C6 amended: for Standby and Conditioning closures, `minRange` is indeed
the minimum of the closing accumulator's and `lastthis`'s `battery_range`
and range lost is `lastprevmode.battery_range - minRange`; but the
battery-level baseline is `lastthis.usable_battery_level` alone (no
minimum, tesla-parser.py lines 328 and 339), and battery lost is
`lastprevmode.usable_battery_level` minus that baseline. -/
theorem C6_amended (sv lt lp : Rec) (d : ℚ) :
    (∀ dl dr pd ul,
      standbyCalc sv (some lt) lp d = some (Out.satLost dl dr pd ul) →
      lt.usable_battery_level = some ul ∧
      ∃ pl pr mr, lp.usable_battery_level = some pl ∧
        lp.battery_range = some pr ∧
        pickLT sv.battery_range lt.battery_range = some mr ∧
        dl = pl - ul ∧ dr = pr - mr) ∧
    (∀ dl dr pd ul,
      conditioningCalc sv (some lt) lp d = some (Out.conditioned dl dr pd ul) →
      lt.usable_battery_level = some ul ∧
      ∃ pl pr mr, lp.usable_battery_level = some pl ∧
        lp.battery_range = some pr ∧
        pickLT sv.battery_range lt.battery_range = some mr ∧
        dl = pl - ul ∧ dr = pr - mr) := by
  constructor <;>
  · intro dl dr pd ul h
    simp only [standbyCalc, conditioningCalc, Option.bind_eq_bind,
      Option.some_bind, Option.bind_eq_some, Option.some.injEq] at h
    obtain ⟨a1, h1, a2, h2, a3, h3, a4, h4, heq⟩ := h
    cases heq
    refine ⟨h4, ?_⟩
    cases hmr : pickLT sv.battery_range lt.battery_range with
    | none =>
      rw [hmr] at h1
      cases lp.battery_range <;> simp [pyOSub] at h1
    | some mr =>
      cases hpr : lp.battery_range with
      | none => rw [hpr] at h1; simp [pyOSub] at h1
      | some pr =>
        rw [hpr, hmr] at h1
        simp only [pyOSub, Option.some.injEq] at h1
        cases hpl : lp.usable_battery_level with
        | none => rw [hpl] at h2; simp [pyOSub] at h2
        | some pl =>
          rw [hpl, h4] at h2
          simp only [pyOSub, Option.some.injEq] at h2
          exact ⟨pl, pr, mr, rfl, rfl, rfl, h2.symm, h1.symm⟩

/-- Witness for C6's amended statement at the concrete C6 inputs. -/
theorem C6_amended_witness :
    c6lt.usable_battery_level = some 70 ∧
    ∃ pl pr mr, c6lp.usable_battery_level = some pl ∧
      c6lp.battery_range = some pr ∧
      pickLT c6sv.battery_range c6lt.battery_range = some mr ∧
      (20 : ℚ) = pl - 70 ∧ (20 : ℚ) = pr - mr :=
  (C6_amended c6sv c6lt c6lp 600).1 20 20 2880 70 (by decide)

/-- A successful Driving dispatch emits either nothing or a single `drove`
line. -/
theorem drivingCalc_emit_shape {r sv : Rec} {lt : Option Rec} {lp : Rec}
    {outs : List Out}
    (h : drivingCalc r sv lt lp = some (DriveRes.emit outs)) :
    outs = [] ∨ ∃ a b c dd, outs = [Out.drove a b c dd] := by
  unfold drivingCalc at h
  by_cases ho : truthyQ r.odometer = true
  · rw [if_pos ho] at h
    cases lt with
    | none => simp at h
    | some l =>
      simp only [Option.bind_eq_bind, Option.some_bind, Option.bind_eq_some] at h
      obtain ⟨a1, -, a2, -, hif⟩ := h
      by_cases hlt : -1 < a1
      · rw [if_pos hlt] at hif
        simp only [Option.bind_eq_bind, Option.bind_eq_some,
          Option.some.injEq] at hif
        obtain ⟨a3, -, a4, -, heq⟩ := hif
        cases heq
        exact Or.inr ⟨_, _, _, _, rfl⟩
      · rw [if_neg hlt] at hif
        cases hif
        exact Or.inl rfl
  · rw [if_neg ho] at h
    cases h

/-- The level of a record merged into the accumulator is never strictly
below the incoming record's own level: `save = save + this` takes `this`'s
level whenever it is present. -/
theorem pyGT_keepNew (new old : Option ℚ) : pyGT new (keepNew new old) = false := by
  cases new with
  | none => cases old <;> rfl
  | some v => simp [keepNew, pyGT, pyLT]

/-- The spec's peak-level rule collapses to line 295's `pickGT` once the
accumulator has absorbed the transition record: the "transition record
strictly exceeds the episode's last reading" case can never fire. -/
theorem chargingPeakSpec_merge (s : PState) (r : Rec) (ltl : Option ℚ) :
    chargingPeakSpec r.usable_battery_level
      (saveMerge s r).usable_battery_level ltl =
    pickGT (saveMerge s r).usable_battery_level ltl := by
  have hv : pyGT r.usable_battery_level
      (saveMerge s r).usable_battery_level = false := by
    unfold saveMerge
    cases s.save with
    | some sv => exact pyGT_keepNew _ _
    | none =>
      cases hr : r.usable_battery_level with
      | none => rfl
      | some v => simp [hr, pyGT, pyLT]
  rw [chargingPeakSpec, hv, pickGT]
  simp

/-- C4: whenever a loop iteration emits a Charging summary, the reported
peak battery level satisfies the spec's selection rule — the transition
record's level when it strictly exceeds the episode's last reading, else
whichever of the episode's last and `previousBeforeLast` is higher — and
the reported delta-% is that peak minus `previousBoundary`'s level.  (The
"transition record" case is vacuous: line 268 merged the transition record
into `save` before line 288 compares, so line 295's overwrite of lines
288-293 is unobservable.) -/
theorem C4_charging_peak (s : PState) (r : Rec) (s' : PState)
    (outs : List Out) (d u e dr mh ef rp : ℚ)
    (hstep : stepRec s r = some (s', outs))
    (hmem : Out.charged d u e dr mh ef rp ∈ outs) :
    ∃ lp l lt, s.lastprevmode = some lp ∧ lp.usable_battery_level = some l ∧
      s.lastthis = some lt ∧
      chargingPeakSpec r.usable_battery_level
        (saveMerge s r).usable_battery_level lt.usable_battery_level = some u ∧
      d = u - l := by
  unfold stepRec at hstep
  split at hstep
  · cases hstep; simp [hasNoPrev] at hmem
  · cases hf : s.firstthismode with
    | none => simp only [hf] at hstep; cases hstep; simp at hmem
    | some ftm =>
      simp only [hf] at hstep
      split at hstep
      · cases hstep; simp at hmem
      · cases hlp : s.lastprevmode with
        | none => simp only [hlp] at hstep; cases hstep; simp at hmem
        | some lp =>
          simp only [hlp] at hstep
          split at hstep
          case isFalse => cases hstep; simp at hmem
          case isTrue hg =>
            split at hstep
            · cases hstep
            case h_2 dres outs2 hd =>
              cases hstep
              unfold dispatchCalc at hd
              split_ifs at hd with hm1 hm2 hm3 hm4
              · rw [Option.map_eq_some'] at hd
                obtain ⟨o, ho, hoo⟩ := hd
                cases hoo
                rw [List.mem_singleton] at hmem
                subst hmem
                cases hlt : s.lastthis with
                | none => rw [hlt] at ho; simp [chargingCalc] at ho
                | some lt =>
                  rw [hlt] at ho
                  simp only [chargingCalc, Option.bind_eq_bind,
                    Option.some_bind, Option.bind_eq_some,
                    Option.some.injEq] at ho
                  obtain ⟨a1, h1, a2, h2, a3, h3, a4, h4, a5, h5, a6, h6,
                    a7, h7, a8, h8, a9, h9, heq⟩ := ho
                  cases heq
                  rw [h2] at h1
                  cases hl : lp.usable_battery_level with
                  | none => rw [hl] at h1; simp [pyOSub] at h1
                  | some l =>
                    rw [hl] at h1
                    simp only [pyOSub, Option.some.injEq] at h1
                    exact ⟨lp, l, lt, rfl, hl, rfl,
                      by rw [chargingPeakSpec_merge, h2], h1.symm⟩
              · rcases drivingCalc_emit_shape hd with rfl | ⟨a, b, c, dd, rfl⟩
                · simp at hmem
                · simp at hmem
              · rw [Option.map_eq_some'] at hd
                obtain ⟨o, ho, hoo⟩ := hd
                cases hoo
                obtain ⟨a, b, c, dd, rfl⟩ := standbyCalc_satLost ho
                simp at hmem
              · rw [Option.map_eq_some'] at hd
                obtain ⟨o, ho, hoo⟩ := hd
                cases hoo
                obtain ⟨a, b, c, dd, rfl⟩ := conditioningCalc_conditioned ho
                simp at hmem
              · cases hd
                simp at hmem
            · cases hstep; simp at hmem

/-- Witness for C4 at a concrete Charging closure: reported peak 80 and
delta-% 30 = 80 - 50. -/
theorem C4_charging_peak_witness :
    ∃ lp l lt, (seedState c4r1).lastprevmode = some lp ∧
      lp.usable_battery_level = some l ∧
      (seedState c4r1).lastthis = some lt ∧
      chargingPeakSpec c4r2.usable_battery_level
        (saveMerge (seedState c4r1) c4r2).usable_battery_level
        lt.usable_battery_level = some 80 ∧
      (30 : ℚ) = 80 - l :=
  C4_charging_peak (seedState c4r1) c4r2
    ⟨some (saveMerge (seedState c4r1) c4r2), some c4r1,
      some (saveMerge (seedState c4r1) c4r2),
      some (saveMerge (seedState c4r1) c4r2), none⟩
    [Out.charged 30 80 12 90 540 40 300] 30 80 12 90 540 40 300
    (by decide) (by decide)

/-- A truthy optional field is a present nonzero value. -/
theorem truthyQ_some {x : Option ℚ} (h : truthyQ x = true) :
    ∃ v, x = some v ∧ v ≠ 0 := by
  cases x with
  | none => simp [truthyQ] at h
  | some v => exact ⟨v, rfl, by simpa [truthyQ] using h⟩

/-- All four optional fields of a good record are present and nonzero. -/
theorem goodRec_fields {r : Rec} (h : goodRec r = true) :
    (∃ v, r.odometer = some v ∧ v ≠ 0) ∧
    (∃ v, r.usable_battery_level = some v ∧ v ≠ 0) ∧
    (∃ v, r.battery_range = some v ∧ v ≠ 0) ∧
    (∃ v, r.charge_energy_added = some v ∧ v ≠ 0) := by
  simp only [goodRec, Bool.and_eq_true] at h
  exact ⟨truthyQ_some h.1.1.1, truthyQ_some h.1.1.2, truthyQ_some h.1.2,
    truthyQ_some h.2⟩

/-- Merging a record with every field present is latest-wins outright. -/
theorem recAdd_good (o r : Rec) (h : goodRec r = true) : recAdd o r = r := by
  obtain ⟨⟨od, hod, -⟩, ⟨lv, hlv, -⟩, ⟨br, hbr, -⟩, ⟨en, hen, -⟩⟩ :=
    goodRec_fields h
  cases r
  simp only at hod hlv hbr hen
  simp [recAdd, keepNew, hod, hlv, hbr, hen]

/-- The accumulator after a good record is that record. -/
theorem saveMerge_good (s : PState) (r : Rec) (h : goodRec r = true) :
    saveMerge s r = r := by
  unfold saveMerge
  cases s.save with
  | none => rfl
  | some sv => exact recAdd_good sv r h

/-- Picking the larger of two present values yields a present value. -/
theorem pickGT_some (a b : ℚ) : ∃ v, pickGT (some a) (some b) = some v := by
  unfold pickGT
  split
  · exact ⟨a, rfl⟩
  · exact ⟨b, rfl⟩

/-- Picking the smaller of two present values yields a present value. -/
theorem pickLT_some (a b : ℚ) : ∃ v, pickLT (some a) (some b) = some v := by
  unfold pickLT
  split
  · exact ⟨a, rfl⟩
  · exact ⟨b, rfl⟩

/-- The guarded ratio never raises: a positive denominator divides cleanly
and otherwise the sentinel 0 is produced. -/
theorem sentinelDiv_some (num den : ℚ) : ∃ v, sentinelDiv num den = some v := by
  unfold sentinelDiv
  split
  · next h => exact ⟨num / den, by rw [pyDivQ, if_neg h.ne']⟩
  · exact ⟨0, rfl⟩

/-- On good records with nonzero duration the Charging branch succeeds. -/
theorem chargingCalc_isSome (sv lt lp : Rec) (d : ℚ)
    (hsv : goodRec sv = true) (hlt : goodRec lt = true)
    (hlp : goodRec lp = true) (hd : d ≠ 0) :
    (chargingCalc sv (some lt) lp d).isSome = true := by
  obtain ⟨⟨svo, hsvo, -⟩, ⟨svl, hsvl, hsvl0⟩, ⟨svr, hsvr, -⟩, ⟨sve, hsve, -⟩⟩ :=
    goodRec_fields hsv
  obtain ⟨⟨lto, hlto, -⟩, ⟨ltl, hltl, -⟩, ⟨ltr, hltr, -⟩, -⟩ := goodRec_fields hlt
  obtain ⟨-, ⟨lpl, hlpl, -⟩, ⟨lpr, hlpr, -⟩, -⟩ := goodRec_fields hlp
  obtain ⟨pk, hpk⟩ := pickGT_some svl ltl
  obtain ⟨bk, hbk⟩ := pickGT_some svr ltr
  obtain ⟨ev, hev⟩ := sentinelDiv_some (sve * 100) (pk - lpl)
  simp [chargingCalc, hsvl, hsvr, hsve, hltl, hltr, hlpl, hlpr, hpk, hbk,
    hev, pyOSub, pyDivQ, hd, hsvl0]

/-- On good records with nonzero duration the Standby branch succeeds. -/
theorem standbyCalc_isSome (sv lt lp : Rec) (d : ℚ)
    (hsv : goodRec sv = true) (hlt : goodRec lt = true)
    (hlp : goodRec lp = true) (hd : d ≠ 0) :
    (standbyCalc sv (some lt) lp d).isSome = true := by
  obtain ⟨-, -, ⟨svr, hsvr, -⟩, -⟩ := goodRec_fields hsv
  obtain ⟨-, ⟨ltl, hltl, -⟩, ⟨ltr, hltr, -⟩, -⟩ := goodRec_fields hlt
  obtain ⟨-, ⟨lpl, hlpl, -⟩, ⟨lpr, hlpr, -⟩, -⟩ := goodRec_fields hlp
  obtain ⟨mk, hmk⟩ := pickLT_some svr ltr
  have hd86 : d / 86400 ≠ 0 := by
    intro hzero
    exact hd (by field_simp at hzero; exact hzero)
  simp [standbyCalc, hsvr, hltl, hltr, hlpl, hlpr, hmk, pyOSub, pyDivQ, hd86]

/-- On good records with nonzero duration the Conditioning branch
succeeds. -/
theorem conditioningCalc_isSome (sv lt lp : Rec) (d : ℚ)
    (hsv : goodRec sv = true) (hlt : goodRec lt = true)
    (hlp : goodRec lp = true) (hd : d ≠ 0) :
    (conditioningCalc sv (some lt) lp d).isSome = true := by
  obtain ⟨-, -, ⟨svr, hsvr, -⟩, -⟩ := goodRec_fields hsv
  obtain ⟨-, ⟨ltl, hltl, -⟩, ⟨ltr, hltr, -⟩, -⟩ := goodRec_fields hlt
  obtain ⟨-, ⟨lpl, hlpl, -⟩, ⟨lpr, hlpr, -⟩, -⟩ := goodRec_fields hlp
  obtain ⟨mk, hmk⟩ := pickLT_some svr ltr
  have hd86 : d / 86400 ≠ 0 := by
    intro hzero
    exact hd (by field_simp at hzero; exact hzero)
  simp [conditioningCalc, hsvr, hltl, hltr, hlpl, hlpr, hmk, pyOSub, pyDivQ,
    hd86]

/-- On good records with non-decreasing odometer the Driving branch emits
exactly one line. -/
theorem drivingCalc_good (r L P : Rec) (hr : goodRec r = true)
    (hL : goodRec L = true) (hP : goodRec P = true)
    (hod : odoVal P ≤ odoVal r) :
    ∃ o, drivingCalc r r (some L) P = some (DriveRes.emit [o]) := by
  have htro : truthyQ r.odometer = true := by
    simp only [goodRec, Bool.and_eq_true] at hr
    exact hr.1.1.1
  obtain ⟨⟨ro, hro, hro0⟩, ⟨rl, hrl, -⟩, ⟨rr, hrr, -⟩, -⟩ := goodRec_fields hr
  obtain ⟨-, ⟨ll, hll, -⟩, ⟨lr, hlr, -⟩, -⟩ := goodRec_fields hL
  obtain ⟨⟨po, hpo, -⟩, ⟨pl, hpl, -⟩, ⟨pr, hpr, -⟩, -⟩ := goodRec_fields hP
  have hgt : (-1 : ℚ) < ro - po := by
    rw [odoVal, odoVal, hpo, hro] at hod
    simp only [Option.getD_some] at hod
    linarith
  obtain ⟨mr, hmr⟩ := pickLT_some rr lr
  obtain ⟨ml, hml⟩ := pickLT_some rl ll
  obtain ⟨ev, hev⟩ := sentinelDiv_some ((ro - po) * 100) (pr - mr)
  exact ⟨Out.drove (ro - po) (pl - ml) (pr - mr) ev,
    by simp [drivingCalc, truthyQ, hro0, hro, hrl, hrr, hll, hlr, hpo, hpl,
      hpr, hmr, hml, hev, pyOSub, hgt]⟩

/-- On good records, nonzero duration and non-decreasing odometer, every
dispatch emits exactly one line (a summary, or the unhandled-mode
diagnostic). -/
theorem dispatchCalc_good (m : String) (r L P : Rec) (d : ℚ)
    (hr : goodRec r = true) (hL : goodRec L = true) (hP : goodRec P = true)
    (hd : d ≠ 0) (hod : odoVal P ≤ odoVal r) :
    ∃ outs, dispatchCalc m r r (some L) P d = some (DriveRes.emit outs) ∧
      outs.length = 1 := by
  unfold dispatchCalc
  split_ifs with h1 h2 h3 h4
  · obtain ⟨o, ho⟩ :=
      Option.isSome_iff_exists.mp (chargingCalc_isSome r L P d hr hL hP hd)
    exact ⟨[o], by rw [ho]; rfl, rfl⟩
  · obtain ⟨o, ho⟩ := drivingCalc_good r L P hr hL hP hod
    exact ⟨[o], ho, rfl⟩
  · obtain ⟨o, ho⟩ :=
      Option.isSome_iff_exists.mp (standbyCalc_isSome r L P d hr hL hP hd)
    exact ⟨[o], by rw [ho]; rfl, rfl⟩
  · obtain ⟨o, ho⟩ :=
      Option.isSome_iff_exists.mp (conditioningCalc_isSome r L P d hr hL hP hd)
    exact ⟨[o], by rw [ho]; rfl, rfl⟩
  · exact ⟨[Out.unhandledMode m], rfl, rfl⟩

/-- One non-Polling iteration on a well-formed stream: it succeeds, keeps
the invariant, leaves the open episode in the record's mode, and emits one
line exactly when the record's mode differs from the open episode's. -/
theorem stepOK (s : PState) (r : Rec) (rest : List Rec)
    (hg : goodRec r = true) (hS : StateOK s (r :: rest))
    (hord : ∀ x ∈ rest, ordRel r x) (hrp : r.mode ≠ "Polling") :
    ∃ s' outs, stepRec s r = some (s', outs) ∧ StateOK s' rest ∧
      modeOf s' = some r.mode ∧
      outs.length = (match modeOf s with
        | none => 0
        | some m => if m = r.mode then 0 else 1) := by
  have hsv := saveMerge_good s r hg
  cases hf : s.firstthismode with
  | none =>
    refine ⟨seedState r, [], ?_, ?_, ?_, ?_⟩
    · simp [stepRec, hrp, hf, hsv, seedState]
    · intro F hF
      simp only [seedState, Option.some.injEq] at hF
      subst hF
      exact ⟨fun x hx => (hord x hx).1,
        r, r, rfl, rfl, hg, hg,
        fun x hx => ⟨(hord x hx).2, (hord x hx).2⟩⟩
    · simp [modeOf, seedState]
    · simp [modeOf, hf]
  | some ftm =>
    obtain ⟨htime, P, L, hP, hL, hgP, hgL, hodo⟩ := hS ftm hf
    by_cases hmode : ftm.mode = r.mode
    · refine ⟨⟨s.firstthismode, s.lastprevmode, some (saveMerge s r),
        some (saveMerge s r), s.reallasttime⟩, [], ?_, ?_, ?_, ?_⟩
      · simp [stepRec, hrp, hf, hmode]
      · intro F hF
        simp only [hf, Option.some.injEq] at hF
        subst hF
        refine ⟨fun x hx => htime x (List.mem_cons_of_mem r hx),
          P, saveMerge s r, hP, rfl, hgP, (by rw [hsv]; exact hg),
          fun x hx => ⟨(hodo x (List.mem_cons_of_mem r hx)).1, ?_⟩⟩
        rw [hsv]
        exact (hord x hx).2
      · simp [modeOf, hf, hmode]
      · simp [modeOf, hf, hmode]
    · have hguard : (truthyQ P.usable_battery_level &&
          truthyQ P.odometer) = true := by
        simp only [goodRec, Bool.and_eq_true] at hgP
        rw [hgP.1.1.2, hgP.1.1.1]
        rfl
      have htr : ftm.time < r.time := htime r (List.mem_cons_self r rest)
      have hdq : ((r.time - ftm.time : ℤ) : ℚ) ≠ 0 :=
        Int.cast_ne_zero.mpr (by omega)
      obtain ⟨outs2, hdout, hlen2⟩ := dispatchCalc_good ftm.mode r L P
        ((r.time - ftm.time : ℤ) : ℚ) hg hgL hgP hdq
        (hodo r (List.mem_cons_self r rest)).1
      have hdout' : dispatchCalc ftm.mode r (saveMerge s r) s.lastthis P
          (((saveMerge s r).time : ℚ) - (ftm.time : ℚ)) =
          some (DriveRes.emit outs2) := by
        rw [hsv, hL]
        exact_mod_cast hdout
      refine ⟨⟨some (saveMerge s r), s.lastthis, some (saveMerge s r),
        some (saveMerge s r),
        if rtTruthy s.reallasttime then none else s.reallasttime⟩, outs2,
        ?_, ?_, ?_, ?_⟩
      · simp [stepRec, hrp, hf, hmode, hP, hguard, hdout']
      · intro F hF
        simp only [Option.some.injEq] at hF
        subst hF
        refine ⟨fun x hx => ?_, L, saveMerge s r, hL, rfl, hgL,
          (by rw [hsv]; exact hg),
          fun x hx => ⟨(hodo x (List.mem_cons_of_mem r hx)).2, ?_⟩⟩
        · rw [hsv]
          exact (hord x hx).1
        · rw [hsv]
          exact (hord x hx).2
      · simp [modeOf, hsv]
      · rw [hlen2]
        simp [modeOf, hf, hmode]

/-- Boundary counting relative to an open mode agrees with adjacent-pair
counting. -/
theorem countAdjFrom_cons (b : Rec) (t : List Rec) :
    countAdjFrom (some b.mode) t = countAdj (b :: t) := by
  induction t generalizing b with
  | nil => rfl
  | cons c t ih => simp [countAdjFrom, countAdj, ih c]

/-- Boundary counting from no open mode is adjacent-pair counting. -/
theorem countAdjFrom_none (q : List Rec) : countAdjFrom none q = countAdj q := by
  cases q with
  | nil => rfl
  | cons b t => simpa [countAdjFrom] using countAdjFrom_cons b t

/-- Running the loop over a well-formed stream succeeds and emits exactly
one line per boundary, counted relative to the currently open mode. -/
theorem runOK (rs : List Rec) : ∀ s : PState,
    (∀ r ∈ rs, goodRec r = true) → rs.Pairwise ordRel → StateOK s rs →
    ∃ s' outs, runRecs s rs = some (s', outs) ∧
      outs.length = countAdjFrom (modeOf s) (nonPolling rs) := by
  induction rs with
  | nil => exact fun s _ _ _ => ⟨s, [], rfl, by cases modeOf s <;> rfl⟩
  | cons r rest ih =>
    intro s hgood hpw hS
    obtain ⟨hordr, hpw'⟩ := List.pairwise_cons.mp hpw
    by_cases hrp : r.mode = "Polling"
    · have hstep : stepRec s r =
          some ({ s with reallasttime := some r.time }, []) := by
        simp [stepRec, hrp]
      have hS' : StateOK { s with reallasttime := some r.time } rest := by
        intro F hF
        obtain ⟨ht, P, L, hP, hL, hgP, hgL, hod⟩ := hS F hF
        exact ⟨fun x hx => ht x (List.mem_cons_of_mem r hx), P, L, hP, hL,
          hgP, hgL, fun x hx => hod x (List.mem_cons_of_mem r hx)⟩
      obtain ⟨s', outs, hrun, hlen⟩ := ih _
        (fun x hx => hgood x (List.mem_cons_of_mem r hx)) hpw' hS'
      refine ⟨s', outs, ?_, ?_⟩
      · simp [runRecs, hstep, hrun]
      · rw [hlen]
        simp [nonPolling, hrp, modeOf]
    · obtain ⟨s1, outs1, hstep, hS1, hm1, hlen1⟩ := stepOK s r rest
        (hgood r (List.mem_cons_self r rest)) hS hordr hrp
      obtain ⟨s', outs, hrun, hlen⟩ := ih s1
        (fun x hx => hgood x (List.mem_cons_of_mem r hx)) hpw' hS1
      refine ⟨s', outs1 ++ outs, ?_, ?_⟩
      · simp [runRecs, hstep, hrun]
      · have hnp : nonPolling (r :: rest) = r :: nonPolling rest := by
          simp [nonPolling, hrp]
        rw [List.length_append, hlen1, hlen, hm1, hnp]
        cases hms : modeOf s with
        | none => simp [countAdjFrom]
        | some m => simp [countAdjFrom]

/-- C3 counterexample: the stream `[c3r1, c3r2]` has one mode-transition
boundary but the loop emits zero lines — the Driving closure computes
distance `50 - 100 = -50`, which fails the `dodo > -1` gate
(tesla-parser.py line 318) and is silently dropped, while the boundary
state still advances.  Summary invocations can therefore undercount
boundaries. -/
theorem C3_counterexample :
    (runRecs initState [c3r1, c3r2]).map (fun p => p.2.length) = some 0 ∧
    boundaries [c3r1, c3r2] = 1 := by decide

/-- C3 amended: over streams of well-formed records — every optional field
present and nonzero, strictly increasing timestamps, non-decreasing
odometer — the loop never raises and the number of emitted summary lines
plus diagnostics equals the number of mode-transition boundaries (adjacent
differing-mode pairs after excluding "Polling" records).  In general the
count can fall short: a Driving closure whose distance is at most -1 is
silently dropped, and one deferred for a missing odometer may never be
re-attempted if the stream ends (or may merge several boundaries into one
summary). -/
theorem C3_amended (rs : List Rec) (hgood : ∀ r ∈ rs, goodRec r = true)
    (hpw : rs.Pairwise ordRel) :
    ∃ s outs, runRecs initState rs = some (s, outs) ∧
      outs.length = boundaries rs := by
  have hS : StateOK initState rs := by
    intro F hF
    simp [initState] at hF
  obtain ⟨s, outs, hrun, hlen⟩ := runOK rs initState hgood hpw hS
  refine ⟨s, outs, hrun, ?_⟩
  rw [hlen, boundaries]
  simp [modeOf, initState, countAdjFrom_none]

/-- Witness for C3's amended statement on a concrete two-record stream. -/
theorem C3_amended_witness :
    ∃ s outs, runRecs initState [c3w1, c3w2] = some (s, outs) ∧
      outs.length = boundaries [c3w1, c3w2] :=
  C3_amended [c3w1, c3w2] (by decide)
    (by
      constructor
      · intro b hb
        simp only [List.mem_singleton] at hb
        subst hb
        exact ⟨by decide, by decide⟩
      · exact List.pairwise_singleton ordRel c3w2)
